import Mathlib

/-!
Verification of the opsai-document-orchestrator analysis pipeline.

Shallow embedding of the core components:
 - the result normalizer (`flatten_fields`, `parse_cu_response` from
   services/document_service.py),
 - the analysis gateway submit/poll protocol
   (`ContentUnderstandingClient.analyze` from clients/content_understanding.py),
 - the schema translator (`convert_field`, `convert_schema` from
   services/analyzer_builder.py) and analyzer provisioning (`setup_all`),
 - the orchestration service (`upload_document`, `analyze_document`).

Python dictionaries, lists and scalars are modelled by the inductive type
`Jsn`; dictionaries are association lists (keys unique in real dictionaries,
lookup takes the first binding).  A Python runtime error (for example calling
`.get` on a non-dictionary) is modelled by `Option.none` / a dedicated error
outcome, since the original code would raise there.
-/

/-- A Python/JSON value: `null`, booleans, numbers (modelled as rationals,
which cover the integer and float literals the code manipulates), strings,
lists and dictionaries (association lists in insertion order). -/
inductive Jsn where
  | null : Jsn
  | bool (b : Bool) : Jsn
  | num (q : Rat) : Jsn
  | str (s : String) : Jsn
  | arr (xs : List Jsn) : Jsn
  | obj (kvs : List (String × Jsn)) : Jsn
deriving Repr

/-- Dictionary lookup, `d.get(k)`: first binding of the key, if any. -/
def lookupJ (k : String) : List (String × Jsn) → Option Jsn
  | [] => none
  | (k₁, v) :: rest => if k₁ = k then some v else lookupJ k rest

/-- Python truthiness of a value (`if x:`): `None`, `False`, zero, the empty
string, the empty list and the empty dictionary are falsy. -/
def truthy : Jsn → Bool
  | .null => false
  | .bool b => b
  | .num q => q ≠ 0
  | .str s => s ≠ ""
  | .arr xs => !xs.isEmpty
  | .obj kvs => !kvs.isEmpty

theorem lookupJ_sizeOf {k : String} {kvs : List (String × Jsn)} {v : Jsn}
    (h : lookupJ k kvs = some v) : sizeOf v < sizeOf kvs := by
  induction kvs with
  | nil => simp [lookupJ] at h
  | cons hd tl ih =>
      obtain ⟨k₁, v₁⟩ := hd
      simp only [lookupJ] at h
      split at h
      · cases h
        simp only [List.cons.sizeOf_spec, Prod.mk.sizeOf_spec]
        omega
      · have := ih h
        simp only [List.cons.sizeOf_spec, Prod.mk.sizeOf_spec]
        omega

mutual

/-- `DocumentService._flatten_fields` applied to the value bound to one field
name.  A dictionary with a `"value"` key yields that value; otherwise a
dictionary with a `"values"` key yields the list with dictionary elements
recursively flattened (iterating a string yields its characters, iterating a
dictionary yields its keys, iterating any other non-list raises — `none`);
otherwise a dictionary is recursively flattened as a nested object; a
non-dictionary passes through unchanged. -/
def flattenField : Jsn → Option Jsn
  | .obj kvs =>
      match lookupJ "value" kvs with
      | some v => some v
      | none =>
          match h₂ : lookupJ "values" kvs with
          | some (.arr xs) => do
              pure (.arr (← flattenItems xs))
          | some (.str s) =>
              -- Python iterates a string character by character; each
              -- character is not a dict and passes through unchanged.
              some (.arr (s.data.map fun c => .str (String.mk [c])))
          | some (.obj kvs₂) =>
              -- Python iterates a dictionary over its keys.
              some (.arr (kvs₂.map fun p => .str p.1))
          | some _ => none
          | none => do
              pure (.obj (← flatten_fields kvs))
  | j => some j
  termination_by j => sizeOf j
  decreasing_by
    · have h₁ := lookupJ_sizeOf h₂
      simp only [Jsn.arr.sizeOf_spec] at h₁
      simp only [Jsn.obj.sizeOf_spec]
      omega
    · simp only [Jsn.obj.sizeOf_spec]
      omega

/-- The list comprehension over `field["values"]`: dictionary elements are
flattened with `_flatten_fields`, everything else passes through. -/
def flattenItems : List Jsn → Option (List Jsn)
  | [] => some []
  | .obj kvs :: rest => do
      pure (.obj (← flatten_fields kvs) :: (← flattenItems rest))
  | item :: rest => do
      pure (item :: (← flattenItems rest))
  termination_by xs => sizeOf xs

/-- `DocumentService._flatten_fields`: flatten every entry of the field
dictionary, preserving names and order. -/
def flatten_fields : List (String × Jsn) → Option (List (String × Jsn))
  | [] => some []
  | (name, field) :: rest => do
      pure ((name, ← flattenField field) :: (← flatten_fields rest))
  termination_by kvs => sizeOf kvs

end

/-- The classification loop of `DocumentService._parse_cu_response`: scan the
`contents` list for the first entry whose `category` value is truthy, and
return that category's `id` and `confidence` (each `None` when absent).
`none` models a raised `AttributeError` (a non-dictionary entry or a truthy
non-dictionary category). -/
def scanContents : List Jsn → Option (Option Jsn × Option Jsn)
  | [] => some (none, none)
  | .obj kvs :: rest =>
      match lookupJ "category" kvs with
      | some cat =>
          if truthy cat then
            match cat with
            | .obj ckvs => some (lookupJ "id" ckvs, lookupJ "confidence" ckvs)
            | _ => none
          else scanContents rest
      | none => scanContents rest
  | _ :: _ => none

/-- `DocumentService._parse_cu_response`: extract `(category_id, fields,
confidence)` from a provider response dictionary.  A falsy or missing
`contents` leaves both classification outputs `None`; a falsy or missing
`fields` leaves the field map empty.  `none` models a raised exception
(iterating a truthy non-list `contents`, or flattening a truthy
non-dictionary `fields`). -/
def parse_cu_response (response : List (String × Jsn)) :
    Option (Option Jsn × List (String × Jsn) × Option Jsn) := do
  let cls ←
    match lookupJ "contents" response with
    | some c =>
        if truthy c then
          match c with
          | .arr xs => scanContents xs
          | _ => none
        else pure ((none : Option Jsn), (none : Option Jsn))
    | none => pure (none, none)
  let fields ←
    match lookupJ "fields" response with
    | some f =>
        if truthy f then
          match f with
          | .obj kvs => flatten_fields kvs
          | _ => none
        else pure []
    | none => pure []
  pure (cls.1, fields, cls.2)

/-- ASCII lowercase of one character: the embedding of Python `str.lower()`
restricted to ASCII, which covers every status string of the wire
contract. -/
def lowerChar (c : Char) : Char :=
  if c.toNat ≥ 65 ∧ c.toNat ≤ 90 then Char.ofNat (c.toNat + 32) else c

/-- ASCII lowercase of a string (`status.lower()` in the source). -/
def lowerStr (s : String) : String :=
  String.mk (s.data.map lowerChar)

/-- Outcome of one `ContentUnderstandingClient.analyze` invocation.  Each
error constructor corresponds to one `raise` site (or unmodelled runtime
error) of the source; `polls` counts the GET requests issued against the
operation location.  `stillPolling` marks a finite poll transcript exhausted
while the loop would keep waiting (the source loop has no attempt bound). -/
inductive CUOutcome where
  | ok (result : Jsn) (polls : Nat)
  | startFailed (status : Nat)
  | noOperationLocation
  | pollHttpError (status : Nat) (polls : Nat)
  | analysisFailed (message : Jsn) (polls : Nat)
  | unknownStatus (status : String) (polls : Nat)
  | crash (polls : Nat)
  | stillPolling (polls : Nat)
deriving Repr

/-- The polling loop of `ContentUnderstandingClient.analyze`: each transcript
entry is the HTTP status code and JSON body of one GET on the operation
location.  The status string is lowercased; `succeeded` returns the `result`
payload (falling back to the whole body), `failed` raises with the
provider-supplied `error.message` (default `"Unknown error"`), `running` and
`notstarted` continue, anything else raises an unknown-status error. -/
def pollLoop : List (Nat × Jsn) → Nat → CUOutcome
  | [], n => .stillPolling n
  | (code, body) :: rest, n =>
      if code ≠ 200 then .pollHttpError code (n + 1)
      else
        match body with
        | .obj kvs =>
            match (lookupJ "status" kvs).getD (.str "") with
            | .str s =>
                let status := lowerStr s
                if status = "succeeded" then
                  .ok ((lookupJ "result" kvs).getD (.obj kvs)) (n + 1)
                else if status = "failed" then
                  match lookupJ "error" kvs with
                  | none => .analysisFailed (.str "Unknown error") (n + 1)
                  | some (.obj ekvs) =>
                      .analysisFailed ((lookupJ "message" ekvs).getD
                        (.str "Unknown error")) (n + 1)
                  | some _ => .crash (n + 1)
                else if status = "running" ∨ status = "notstarted" then
                  pollLoop rest (n + 1)
                else .unknownStatus status (n + 1)
            | _ => .crash (n + 1)
        | _ => .crash (n + 1)

/-- `ContentUnderstandingClient.analyze`: submit, then poll.  The submit
response is its HTTP status code, optional `Operation-Location` header and
JSON body.  A status outside {200, 202} raises; 200 returns the body inline
with zero polls; 202 requires a truthy operation location (a missing or empty
header raises before any poll) and then enters the polling loop. -/
def analyze (submitStatus : Nat) (opLoc : Option String) (submitBody : Jsn)
    (polls : List (Nat × Jsn)) : CUOutcome :=
  if submitStatus ≠ 200 ∧ submitStatus ≠ 202 then .startFailed submitStatus
  else if submitStatus = 200 then .ok submitBody 0
  else
    match opLoc with
    | none => .noOperationLocation
    | some u => if u = "" then .noOperationLocation else pollLoop polls 0

/-- The comparison `field.get("type") == "object"` (or `"array"`): true only
when the `type` key is bound to exactly that string. -/
def typeIs (kvs : List (String × Jsn)) (s : String) : Bool :=
  match lookupJ "type" kvs with
  | some (.str t) => t == s
  | _ => false

mutual

/-- `AnalyzerBuilder._convert_field`: emit `type` (defaulting to the string
`"string"` when absent), then `description` when truthy, then recurse into
`properties` only when `type` is exactly `"object"`, and into `items` only
when `type` is exactly `"array"`.  `none` models a raised exception (a
non-dictionary field, or a non-dictionary under a present `properties`
key of an object-typed field). -/
def convert_field : Jsn → Option Jsn
  | .obj kvs =>
      let tyPart := [("type", (lookupJ "type" kvs).getD (.str "string"))]
      let descrPart :=
        match lookupJ "description" kvs with
        | some d => if truthy d then [("description", d)] else []
        | none => []
      let propsPart : Option (List (String × Jsn)) :=
        if typeIs kvs "object" then
          match h₂ : lookupJ "properties" kvs with
          | some (.obj props) =>
              match convert_props props with
              | some ps => some [("properties", .obj ps)]
              | none => none
          | some _ => none
          | none => some []
        else some []
      let itemsPart : Option (List (String × Jsn)) :=
        if typeIs kvs "array" then
          match h₃ : lookupJ "items" kvs with
          | some item =>
              match convert_field item with
              | some it => some [("items", it)]
              | none => none
          | none => some []
        else some []
      match propsPart, itemsPart with
      | some ps, some its => some (.obj (tyPart ++ descrPart ++ ps ++ its))
      | _, _ => none
  | _ => none
  termination_by j => sizeOf j
  decreasing_by
    · have h₁ := lookupJ_sizeOf h₂
      simp only [Jsn.obj.sizeOf_spec] at h₁ ⊢
      omega
    · have h₁ := lookupJ_sizeOf h₃
      simp only [Jsn.obj.sizeOf_spec]
      omega

/-- The dictionary comprehension over `field["properties"].items()`: convert
every property value, preserving names and order. -/
def convert_props : List (String × Jsn) → Option (List (String × Jsn))
  | [] => some []
  | (k, v) :: rest =>
      match convert_field v, convert_props rest with
      | some cv, some crest => some ((k, cv) :: crest)
      | _, _ => none
  termination_by kvs => sizeOf kvs

end

/-- `AnalyzerBuilder._convert_schema`: convert every top-level field of the
extraction schema with `_convert_field` — the same loop as the `properties`
comprehension. -/
def convert_schema (schema : List (String × Jsn)) : Option (List (String × Jsn)) :=
  convert_props schema

mutual

/-- The declarative FieldSchema tree of the data model: a leaf (with an
optional `type` marker and optional description), an object (its `type`
marker present by construction) with named properties, or an array (`type`
marker present) with an item schema. -/
inductive FieldSchema where
  | leaf (ty : Option String) (descr : Option String) : FieldSchema
  | object (descr : Option String) (props : FieldProps) : FieldSchema
  | array (descr : Option String) (item : FieldSchema) : FieldSchema

/-- An ordered map of named sub-schemas. -/
inductive FieldProps where
  | nil : FieldProps
  | cons (name : String) (f : FieldSchema) (rest : FieldProps) : FieldProps

end

/-- The `description` entry an optional description contributes to the
untyped dictionary form. -/
def descrEntries : Option String → List (String × Jsn)
  | some d => [("description", .str d)]
  | none => []

mutual

/-- The untyped (Python dictionary) form of a FieldSchema node, exactly the
YAML-derived input shape documented in `_convert_schema`. -/
def FieldSchema.toJsn : FieldSchema → Jsn
  | .leaf ty d =>
      .obj ((match ty with
             | some t => [("type", Jsn.str t)]
             | none => []) ++ descrEntries d)
  | .object d props =>
      .obj ([("type", Jsn.str "object")] ++ descrEntries d ++
        [("properties", .obj props.toJsn)])
  | .array d item =>
      .obj ([("type", Jsn.str "array")] ++ descrEntries d ++
        [("items", item.toJsn)])

/-- The untyped form of an ordered property map. -/
def FieldProps.toJsn : FieldProps → List (String × Jsn)
  | .nil => []
  | .cons n f rest => (n, f.toJsn) :: rest.toJsn

end

/-- A description survives translation only when truthy (non-empty). -/
def normDescr : Option String → Option String
  | some d => if d = "" then none else some d
  | none => none

mutual

/-- The specification-side schema translation, modelled from the spec:
a structure-preserving map that defaults a missing leaf `type` to
`"string"`, drops empty descriptions, and recurses through objects and
arrays without changing the tree shape. -/
def specTranslate : FieldSchema → FieldSchema
  | .leaf ty d => .leaf (some (ty.getD "string")) (normDescr d)
  | .object d props => .object (normDescr d) (specTranslateProps props)
  | .array d item => .array (normDescr d) (specTranslate item)

/-- `specTranslate` mapped over an ordered property map. -/
def specTranslateProps : FieldProps → FieldProps
  | .nil => .nil
  | .cons n f rest => .cons n (specTranslate f) (specTranslateProps rest)

end

mutual

/-- Number of schema nodes in a FieldSchema tree. -/
def FieldSchema.nodeCount : FieldSchema → Nat
  | .leaf _ _ => 1
  | .object _ props => 1 + props.nodeCount
  | .array _ item => 1 + item.nodeCount

/-- Total node count of an ordered property map. -/
def FieldProps.nodeCount : FieldProps → Nat
  | .nil => 0
  | .cons _ f rest => f.nodeCount + rest.nodeCount

end

mutual

/-- Nesting depth of a FieldSchema tree. -/
def FieldSchema.depth : FieldSchema → Nat
  | .leaf _ _ => 1
  | .object _ props => 1 + props.depth
  | .array _ item => 1 + item.depth

/-- Maximal depth over an ordered property map. -/
def FieldProps.depth : FieldProps → Nat
  | .nil => 0
  | .cons _ f rest => max f.depth rest.depth

end

/-- The property names of an ordered property map, in order. -/
def FieldProps.nameList : FieldProps → List String
  | .nil => []
  | .cons n _ rest => n :: rest.nameList

/-- The `AnalysisResult` record constructed by `DocumentService`. The
timestamp is the clock value injected for `datetime.utcnow()`. -/
structure AnalysisResult where
  document_id : String
  category_id : Option Jsn
  extracted_fields : List (String × Jsn)
  confidence : Option Jsn
  analyzed_at : Nat
deriving Repr

/-- `DocumentService.analyze_document`, with the collaborator calls made
explicit: `raw` is the outcome of the gateway call
(`self._cu.analyze(router_id, sas_url)` — an exception or a returned JSON
value), `saved` is the trace of `self._docs.save(...)` calls so far, and
`now` the injected clock.  Returns the outcome and the updated save trace:
on a gateway exception or a parse error the trace is untouched; on success
exactly one fully-normalized result is appended. -/
def analyze_document (document_id : String) (now : Nat)
    (raw : Except String Jsn) (saved : List AnalysisResult) :
    Except String AnalysisResult × List AnalysisResult :=
  match raw with
  | .error e => (.error e, saved)
  | .ok r =>
      match r with
      | .obj kvs =>
          match parse_cu_response kvs with
          | none => (.error "parse error", saved)
          | some (category_id, fields, confidence) =>
              let result : AnalysisResult :=
                ⟨document_id, category_id, fields, confidence, now⟩
              (.ok result, saved ++ [result])
      | _ => (.error "response is not a dictionary", saved)

/-- `DocumentService.upload_document`, with the fresh `uuid.uuid4()` value
injected as `uuid` and the storage collaborator modelled by its URL function
`urlOf` plus a trace of `blob.upload` calls.  Returns
`((document_id, blob_url), blob-call trace, result-repository save trace,
feedback-repository save trace)`; the two repository traces are passed
through untouched because the method performs no repository access and no
analysis. -/
def upload_document (urlOf : String → String) (uuid : String)
    (filename : String) (content : List Nat) (content_type : String)
    (blobCalls : List (String × List Nat × String))
    (docSaves : List AnalysisResult) (feedbackSaves : List (String × String)) :
    (String × String) × List (String × List Nat × String) ×
      List AnalysisResult × List (String × String) :=
  let document_id := uuid
  let blob_name := document_id ++ "/" ++ filename
  ((document_id, urlOf blob_name),
    blobCalls ++ [(blob_name, content, content_type)], docSaves, feedbackSaves)

/-- `AzureSettings` from the domain models. -/
structure AzureSettings where
  endpoint : String
  api_version : String
  router_analyzer_id : String

/-- `Category` from the domain models; `extraction_schema` is the untyped
dictionary loaded from YAML. -/
structure Category where
  id : String
  display_name : String
  analyzer_id : String
  classification_prompt : String
  extraction_schema : List (String × Jsn)

/-- `PipelineConfig` from the domain models. -/
structure PipelineConfig where
  azure : AzureSettings
  categories : List Category

/-- `AnalyzerBuilder.build_category_analyzer`; `none` when schema conversion
raises. -/
def build_category_analyzer (cat : Category) : Option Jsn :=
  match convert_schema cat.extraction_schema with
  | some fs =>
      some (.obj [("description", .str ("Extractor for " ++ cat.display_name)),
                  ("baseAnalyzerId", .str "prebuilt-document"),
                  ("fieldSchema", .obj fs)])
  | none => none

/-- `AnalyzerBuilder.build_router_analyzer`. -/
def build_router_analyzer (config : PipelineConfig) : Jsn :=
  .obj [("description", .str "Document classification router"),
        ("baseAnalyzerId", .str "prebuilt-document"),
        ("config", .obj
          [("contentCategories", .arr (config.categories.map fun cat =>
              .obj [("id", .str cat.id),
                    ("description", .str cat.classification_prompt),
                    ("analyzerId", .str cat.analyzer_id)])),
           ("enableSegment", .bool false)])]

/-- The per-category loop of `AnalyzerBuilder.setup_all`: one
`create_analyzer(analyzer_id, body)` call per category, in list order;
`none` when building a body raises (the loop stops there). -/
def setupCategories : List Category → Option (List (String × Jsn))
  | [] => some []
  | cat :: rest => do
      pure ((cat.analyzer_id, ← build_category_analyzer cat)
        :: (← setupCategories rest))

/-- `AnalyzerBuilder.setup_all`: the trace of `create_analyzer` calls it
issues — every category analyzer in configuration order, then the router
analyzer last. -/
def setup_all (config : PipelineConfig) : Option (List (String × Jsn)) := do
  let catCalls ← setupCategories config.categories
  pure (catCalls ++
    [(config.azure.router_analyzer_id, build_router_analyzer config)])

/-- An entry of the `contents` list that the classification loop steps over
without matching: a dictionary whose `category` value is absent or falsy. -/
def noCategory : Jsn → Bool
  | .obj kvs =>
      match lookupJ "category" kvs with
      | some c => !truthy c
      | none => true
  | _ => false

theorem scanContents_skip {pre rest : List Jsn}
    (h : ∀ e ∈ pre, noCategory e = true) :
    scanContents (pre ++ rest) = scanContents rest := by
  induction pre with
  | nil => rfl
  | cons e pre ih =>
      have he : noCategory e = true := h e (by simp)
      have hpre : ∀ x ∈ pre, noCategory x = true := fun x hx => h x (by simp [hx])
      cases e with
      | obj kvs =>
          simp only [noCategory] at he
          simp only [List.cons_append, scanContents]
          cases hc : lookupJ "category" kvs with
          | none => exact ih hpre
          | some c =>
              rw [hc] at he
              have he₂ : truthy c = false := by simpa using he
              simp [he₂, ih hpre]
      | null => simp [noCategory] at he
      | bool b => simp [noCategory] at he
      | num q => simp [noCategory] at he
      | str s => simp [noCategory] at he
      | arr xs => simp [noCategory] at he

theorem scanContents_none {xs : List Jsn}
    (h : ∀ e ∈ xs, noCategory e = true) :
    scanContents xs = some (none, none) := by
  have h₁ := @scanContents_skip xs [] h
  rw [List.append_nil] at h₁
  exact h₁

theorem scanContents_found {kvs ckvs : List (String × Jsn)} {post : List Jsn}
    (hcat : lookupJ "category" kvs = some (.obj ckvs))
    (hne : truthy (.obj ckvs) = true) :
    scanContents (Jsn.obj kvs :: post)
      = some (lookupJ "id" ckvs, lookupJ "confidence" ckvs) := by
  simp only [scanContents]
  rw [hcat]
  simp [hne]

/-- C1: classification extraction is first-match.  (a) Scanning a `contents`
list whose prefix has no truthy category and then hits an entry with a
non-empty `category` object returns that entry's `id` and `confidence`,
whatever follows (later, even higher-confidence entries are ignored);
(b) when no entry has a truthy category both outputs are `None`;
(c) at the response level, a `contents` list with no category yields
`(None, None)`; (d) the tie-break example: `contents
[{category:{id:"x",confidence:0.9}}, {category:{id:"y",confidence:0.99}}]`
extracts `"x"` with confidence `0.9`, not the higher-confidence `"y"`. -/
theorem spec_c1_classification_first_match :
    (∀ (pre : List Jsn) (kvs ckvs : List (String × Jsn)) (post : List Jsn),
      (∀ e ∈ pre, noCategory e = true) →
      lookupJ "category" kvs = some (.obj ckvs) →
      truthy (.obj ckvs) = true →
      scanContents (pre ++ Jsn.obj kvs :: post)
        = some (lookupJ "id" ckvs, lookupJ "confidence" ckvs))
    ∧ (∀ xs : List Jsn, (∀ e ∈ xs, noCategory e = true) →
        scanContents xs = some (none, none))
    ∧ (∀ (resp : List (String × Jsn)) (xs : List Jsn),
        lookupJ "contents" resp = some (.arr xs) →
        (∀ e ∈ xs, noCategory e = true) →
        lookupJ "fields" resp = none →
        parse_cu_response resp = some (none, [], none))
    ∧ parse_cu_response
        [("contents", .arr
          [.obj [("category", .obj [("id", .str "x"),
                                    ("confidence", .num (9/10))])],
           .obj [("category", .obj [("id", .str "y"),
                                    ("confidence", .num (99/100))])]])]
        = some (some (.str "x"), [], some (.num (9/10))) := by
  refine ⟨?_, ?_, ?_, ?_⟩
  · intro pre kvs ckvs post hpre hcat hne
    rw [scanContents_skip hpre, scanContents_found hcat hne]
  · intro xs h
    exact scanContents_none h
  · intro resp xs hc hno hf
    have hscan := scanContents_none hno
    simp only [parse_cu_response, hc, hf]
    cases xs with
    | nil => simp [truthy]
    | cons e rest => simp [truthy, hscan]
  · simp [parse_cu_response, lookupJ, truthy, scanContents]

/-- Witness for C1: the tie-break list with a leading no-category entry;
the first truthy category wins. -/
theorem spec_c1_classification_first_match_witness :
    scanContents
      [Jsn.obj [("other", .str "z")],
       .obj [("category", .obj [("id", .str "x"), ("confidence", .num (9/10))])],
       .obj [("category", .obj [("id", .str "y"), ("confidence", .num (99/100))])]]
      = some (some (.str "x"), some (.num (9/10))) := by
  have h := spec_c1_classification_first_match.1
    [Jsn.obj [("other", .str "z")]]
    [("category", .obj [("id", .str "x"), ("confidence", .num (9/10))])]
    [("id", .str "x"), ("confidence", .num (9/10))]
    [.obj [("category", .obj [("id", .str "y"), ("confidence", .num (99/100))])]]
    (by intro e he; simp at he; subst he; rfl) rfl rfl
  simpa [lookupJ] using h

/-- C2: normalization priority per named node.  (a) a map node with a
`"value"` key yields that scalar as-is; (b) otherwise a `"values"` key
yields the normalized ordered sequence, where (c) map elements are
recursively normalized and (d) non-map elements pass through unchanged;
(e) otherwise a map node is recursed into as an implicit nested object;
(f) a non-map node passes through unchanged; (g) the example:
`normalize({"items": {"values": [{"a": {"value": 1}}]}})
 = {"items": [{"a": 1}]}`. -/
theorem spec_c2_normalize_priority :
    (∀ (kvs : List (String × Jsn)) (v : Jsn),
      lookupJ "value" kvs = some v → flattenField (.obj kvs) = some v)
    ∧ (∀ (kvs : List (String × Jsn)) (xs ys : List Jsn),
      lookupJ "value" kvs = none → lookupJ "values" kvs = some (.arr xs) →
      flattenItems xs = some ys → flattenField (.obj kvs) = some (.arr ys))
    ∧ (∀ (ikvs : List (String × Jsn)) (rest : List Jsn)
        (f : List (String × Jsn)) (r : List Jsn),
      flatten_fields ikvs = some f → flattenItems rest = some r →
      flattenItems (Jsn.obj ikvs :: rest) = some (.obj f :: r))
    ∧ (∀ (j : Jsn) (rest r : List Jsn), (∀ kvs, j ≠ .obj kvs) →
      flattenItems rest = some r → flattenItems (j :: rest) = some (j :: r))
    ∧ (∀ (kvs f : List (String × Jsn)),
      lookupJ "value" kvs = none → lookupJ "values" kvs = none →
      flatten_fields kvs = some f → flattenField (.obj kvs) = some (.obj f))
    ∧ (∀ j : Jsn, (∀ kvs, j ≠ .obj kvs) → flattenField j = some j)
    ∧ flatten_fields
        [("items", .obj [("values", .arr [.obj [("a", .obj [("value", .num 1)])]])])]
        = some [("items", .arr [.obj [("a", .num 1)]])] := by
  refine ⟨?_, ?_, ?_, ?_, ?_, ?_, ?_⟩
  · intro kvs v h
    simp [flattenField, h]
  · intro kvs xs ys h₁ h₂ h₃
    simp only [flattenField, h₁]
    split <;> simp_all
  · intro ikvs rest f r h₁ h₂
    simp [flattenItems, h₁, h₂]
  · intro j rest r hno h₂
    cases j with
    | obj kvs => exact absurd rfl (hno kvs)
    | null => simp [flattenItems, h₂]
    | bool b => simp [flattenItems, h₂]
    | num q => simp [flattenItems, h₂]
    | str s => simp [flattenItems, h₂]
    | arr xs => simp [flattenItems, h₂]
  · intro kvs f h₁ h₂ h₃
    simp only [flattenField, h₁]
    split <;> simp_all
  · intro j hno
    cases j with
    | obj kvs => exact absurd rfl (hno kvs)
    | null => simp [flattenField]
    | bool b => simp [flattenField]
    | num q => simp [flattenField]
    | str s => simp [flattenField]
    | arr xs => simp [flattenField]
  · simp [flatten_fields, flattenField, flattenItems, lookupJ]

/-- Witness for C2: a `value`-marked node yields the scalar even when a
`values` key is also present (priority order). -/
theorem spec_c2_normalize_priority_witness :
    flattenField (.obj [("value", .num 7), ("values", .arr [.num 1])])
      = some (.num 7) :=
  spec_c2_normalize_priority.1 [("value", .num 7), ("values", .arr [.num 1])]
    (.num 7) rfl

/-- C3: poll dispatch on the status string, matched case-insensitively.
(a) `succeeded` terminates and returns the `result` payload, falling back to
the whole body when no `result` key is present; (b) `failed` raises carrying
the provider-supplied error message; (c) `running` and `notStarted` continue
polling; (d) any other status raises a fatal unknown-status error instead of
being treated as transient; (e) the poll sequence `running → running →
succeeded{result:R}` returns `R` on the third poll — i.e. after exactly two
extra (continuing) poll calls — and (f) after only the two `running` polls
the invocation is still polling. -/
theorem spec_c3_poll_status_dispatch :
    (∀ (kvs : List (String × Jsn)) (s : String) (rest : List (Nat × Jsn)) (n : Nat),
      lookupJ "status" kvs = some (.str s) → lowerStr s = "succeeded" →
      pollLoop ((200, .obj kvs) :: rest) n
        = .ok ((lookupJ "result" kvs).getD (.obj kvs)) (n + 1))
    ∧ (∀ (kvs ekvs : List (String × Jsn)) (s : String) (rest : List (Nat × Jsn)) (n : Nat),
      lookupJ "status" kvs = some (.str s) → lowerStr s = "failed" →
      lookupJ "error" kvs = some (.obj ekvs) →
      pollLoop ((200, .obj kvs) :: rest) n
        = .analysisFailed ((lookupJ "message" ekvs).getD (.str "Unknown error")) (n + 1))
    ∧ (∀ (kvs : List (String × Jsn)) (s : String) (rest : List (Nat × Jsn)) (n : Nat),
      lookupJ "status" kvs = some (.str s) →
      (lowerStr s = "running" ∨ lowerStr s = "notstarted") →
      pollLoop ((200, .obj kvs) :: rest) n = pollLoop rest (n + 1))
    ∧ (∀ (kvs : List (String × Jsn)) (s : String) (rest : List (Nat × Jsn)) (n : Nat),
      lookupJ "status" kvs = some (.str s) →
      lowerStr s ≠ "succeeded" → lowerStr s ≠ "failed" →
      lowerStr s ≠ "running" → lowerStr s ≠ "notstarted" →
      pollLoop ((200, .obj kvs) :: rest) n = .unknownStatus (lowerStr s) (n + 1))
    ∧ analyze 202 (some "op") .null
        [(200, .obj [("status", .str "running")]),
         (200, .obj [("status", .str "running")]),
         (200, .obj [("status", .str "succeeded"), ("result", .str "R")])]
        = .ok (.str "R") 3
    ∧ analyze 202 (some "op") .null
        [(200, .obj [("status", .str "running")]),
         (200, .obj [("status", .str "running")])]
        = .stillPolling 2 := by
  refine ⟨?_, ?_, ?_, ?_, rfl, rfl⟩
  · intro kvs s rest n h hs
    simp [pollLoop, h, hs]
  · intro kvs ekvs s rest n h hs herr
    simp [pollLoop, h, hs, herr]
  · intro kvs s rest n h hs
    rcases hs with hs | hs <;> simp [pollLoop, h, hs]
  · intro kvs s rest n h h₁ h₂ h₃ h₄
    simp [pollLoop, h, h₁, h₂, h₃, h₄]

/-- Witness for C3: a mixed-case `Failed` status with a provider message is
dispatched case-insensitively to the analysis-failure error carrying the
message. -/
theorem spec_c3_poll_status_dispatch_witness :
    pollLoop [(200, .obj [("status", .str "Failed"),
                          ("error", .obj [("message", .str "m")])])] 0
      = .analysisFailed (.str "m") 1 := by
  have h := spec_c3_poll_status_dispatch.2.1
    [("status", .str "Failed"), ("error", .obj [("message", .str "m")])]
    [("message", .str "m")] "Failed" [] 0 rfl rfl rfl
  simpa [lookupJ] using h

/-- C4: the submit step.  (a) a 200 inline response returns the body
verbatim with zero polls, whatever the transcript holds; (b) a 202 response
without an `Operation-Location` header raises the protocol error before any
polling; (c) likewise for an empty (falsy) header value; (d) any other
submit status raises the start-failure error. -/
theorem spec_c4_submit_dispatch :
    (∀ (opLoc : Option String) (body : Jsn) (polls : List (Nat × Jsn)),
      analyze 200 opLoc body polls = .ok body 0)
    ∧ (∀ (body : Jsn) (polls : List (Nat × Jsn)),
      analyze 202 none body polls = .noOperationLocation)
    ∧ (∀ (body : Jsn) (polls : List (Nat × Jsn)),
      analyze 202 (some "") body polls = .noOperationLocation)
    ∧ (∀ (code : Nat) (opLoc : Option String) (body : Jsn)
        (polls : List (Nat × Jsn)), code ≠ 200 → code ≠ 202 →
      analyze code opLoc body polls = .startFailed code) := by
  refine ⟨?_, ?_, ?_, ?_⟩
  · intro opLoc body polls
    simp [analyze]
  · intro body polls
    simp [analyze]
  · intro body polls
    simp [analyze]
  · intro code opLoc body polls h₁ h₂
    simp [analyze, h₁, h₂]

/-- Witness for C4: submit status 503 raises the start-failure error. -/
theorem spec_c4_submit_dispatch_witness :
    analyze 503 (some "op") (.str "body") [] = .startFailed 503 :=
  spec_c4_submit_dispatch.2.2.2 503 (some "op") (.str "body") []
    (by decide) (by decide)

/-- C5: no partial AnalysisResult is ever persisted.  (a) a gateway
exception leaves the save trace unchanged; (b) a response-parsing failure
leaves it unchanged; (c) a non-dictionary response leaves it unchanged;
(d) on success the repository save is called exactly once, with the fully
normalized result, appended after gateway call and normalization have both
succeeded. -/
theorem spec_c5_no_partial_persist :
    (∀ (id : String) (now : Nat) (e : String) (saved : List AnalysisResult),
      analyze_document id now (.error e) saved = (.error e, saved))
    ∧ (∀ (id : String) (now : Nat) (kvs : List (String × Jsn))
        (saved : List AnalysisResult),
      parse_cu_response kvs = none →
      analyze_document id now (.ok (.obj kvs)) saved
        = (.error "parse error", saved))
    ∧ (∀ (id : String) (now : Nat) (r : Jsn) (saved : List AnalysisResult),
      (∀ kvs, r ≠ .obj kvs) →
      analyze_document id now (.ok r) saved
        = (.error "response is not a dictionary", saved))
    ∧ (∀ (id : String) (now : Nat) (kvs : List (String × Jsn))
        (saved : List AnalysisResult) (c : Option Jsn)
        (f : List (String × Jsn)) (conf : Option Jsn),
      parse_cu_response kvs = some (c, f, conf) →
      analyze_document id now (.ok (.obj kvs)) saved
        = (.ok ⟨id, c, f, conf, now⟩, saved ++ [⟨id, c, f, conf, now⟩])) := by
  refine ⟨?_, ?_, ?_, ?_⟩
  · intro id now e saved
    rfl
  · intro id now kvs saved h
    simp [analyze_document, h]
  · intro id now r saved hno
    cases r with
    | obj kvs => exact absurd rfl (hno kvs)
    | null => rfl
    | bool b => rfl
    | num q => rfl
    | str s => rfl
    | arr xs => rfl
  · intro id now kvs saved c f conf h
    simp [analyze_document, h]

/-- Witness for C5: a response whose `contents` is a truthy non-list makes
parsing raise, and the save trace is untouched; a well-formed response is
saved exactly once. -/
theorem spec_c5_no_partial_persist_witness :
    analyze_document "d1" 5 (.ok (.obj [("contents", .num 1)]))
      [⟨"d0", none, [], none, 0⟩]
      = (.error "parse error", [⟨"d0", none, [], none, 0⟩]) := by
  have h := spec_c5_no_partial_persist.2.1 "d1" 5 [("contents", .num 1)]
    [⟨"d0", none, [], none, 0⟩] (by simp [parse_cu_response, lookupJ, truthy])
  exact h

/-- C9: `upload_document` freshness and effect scope.  (a) the returned
document id is the injected fresh identifier, independent of filename,
content and content type; (b) the returned locator is the storage
collaborator's URL for the locator derived from the id and the filename
(`id/filename`); (c) exactly one blob write with that locator is appended;
(d) the result-repository and feedback-repository traces are untouched (no
analysis, no repository access); (e) two calls with identical arguments but
distinct fresh identifiers return distinct document ids. -/
theorem spec_c9_upload_fresh_id :
    (∀ (urlOf : String → String) (u f : String) (c : List Nat) (ct : String)
        (bc : List (String × List Nat × String)) (ds : List AnalysisResult)
        (fs : List (String × String)),
      (upload_document urlOf u f c ct bc ds fs).1.1 = u
      ∧ (upload_document urlOf u f c ct bc ds fs).1.2 = urlOf (u ++ "/" ++ f)
      ∧ (upload_document urlOf u f c ct bc ds fs).2.1
          = bc ++ [(u ++ "/" ++ f, c, ct)]
      ∧ (upload_document urlOf u f c ct bc ds fs).2.2.1 = ds
      ∧ (upload_document urlOf u f c ct bc ds fs).2.2.2 = fs)
    ∧ (∀ (urlOf : String → String) (u₁ u₂ f : String) (c : List Nat) (ct : String)
        (bc₁ bc₂ : List (String × List Nat × String))
        (ds₁ ds₂ : List AnalysisResult) (fs₁ fs₂ : List (String × String)),
      u₁ ≠ u₂ →
      (upload_document urlOf u₁ f c ct bc₁ ds₁ fs₁).1.1
        ≠ (upload_document urlOf u₂ f c ct bc₂ ds₂ fs₂).1.1) := by
  constructor
  · intro urlOf u f c ct bc ds fs
    exact ⟨rfl, rfl, rfl, rfl, rfl⟩
  · intro urlOf u₁ u₂ f c ct bc₁ bc₂ ds₁ ds₂ fs₁ fs₂ hne
    simpa [upload_document] using hne

/-- Witness for C9: two uploads of the identical file under distinct fresh
identifiers return distinct document ids. -/
theorem spec_c9_upload_fresh_id_witness :
    (upload_document (fun n => n) "id-a" "f.pdf" [120] "application/pdf" [] [] []).1.1
      ≠ (upload_document (fun n => n) "id-b" "f.pdf" [120] "application/pdf" [] [] []).1.1 :=
  spec_c9_upload_fresh_id.2 (fun n => n) "id-a" "id-b" "f.pdf" [120]
    "application/pdf" [] [] [] [] [] [] (by decide)

theorem setupCategories_spec (cats : List Category) (l : List (String × Jsn))
    (h : setupCategories cats = some l) :
    l.length = cats.length ∧
    ∀ i (hi : i < cats.length), ∃ body,
      build_category_analyzer (cats.get ⟨i, hi⟩) = some body ∧
      l.get? i = some ((cats.get ⟨i, hi⟩).analyzer_id, body) := by
  induction cats generalizing l with
  | nil =>
      simp only [setupCategories] at h
      cases h
      exact ⟨rfl, fun i hi => absurd hi (by simp)⟩
  | cons cat rest ih =>
      simp only [setupCategories, Option.pure_def, Option.bind_eq_bind,
        Option.bind_eq_some, Option.some.injEq] at h
      obtain ⟨b, hb, r, hr, hl⟩ := h
      obtain ⟨hlen, hidx⟩ := ih r hr
      subst hl
      refine ⟨by simp [hlen], ?_⟩
      intro i hi
      cases i with
      | zero => exact ⟨b, hb, by simp⟩
      | succ i =>
          obtain ⟨body, h₁, h₂⟩ := hidx i (by simpa using hi)
          exact ⟨body, h₁, by simpa using h₂⟩

/-- C8: provisioning order.  For every configuration with a non-empty
category list, in the sequence of `create_analyzer` calls `setup_all`
produces (when it completes): there is exactly one call per category plus
the router call, the router upsert is the last call, and for each index `i`
the `i`-th call upserts the `i`-th category's analyzer (category-list
order), so every per-category analyzer is upserted before the router. -/
theorem spec_c8_provisioning_order (config : PipelineConfig)
    (trace : List (String × Jsn)) (hne : config.categories ≠ [])
    (h : setup_all config = some trace) :
    trace.length = config.categories.length + 1
    ∧ trace.getLast?
        = some (config.azure.router_analyzer_id, build_router_analyzer config)
    ∧ ∀ i (hi : i < config.categories.length), ∃ body,
        build_category_analyzer (config.categories.get ⟨i, hi⟩) = some body
        ∧ trace.get? i
            = some ((config.categories.get ⟨i, hi⟩).analyzer_id, body) := by
  simp only [setup_all, Option.pure_def, Option.bind_eq_bind,
    Option.bind_eq_some, Option.some.injEq] at h
  obtain ⟨catCalls, hc, htrace⟩ := h
  obtain ⟨hlen, hidx⟩ := setupCategories_spec _ _ hc
  subst htrace
  refine ⟨by simp [hlen], List.getLast?_concat _, ?_⟩
  intro i hi
  obtain ⟨body, h₁, h₂⟩ := hidx i hi
  refine ⟨body, h₁, ?_⟩
  rw [List.get?_append (by rw [hlen]; exact hi)]
  exact h₂

/-- The single-category configuration used to witness C8. -/
def sampleConfig : PipelineConfig :=
  ⟨⟨"https://e", "v1", "router-id"⟩,
   [⟨"inv", "Invoice", "inv-an", "an invoice",
     [("total", .obj [("type", .str "number")])]⟩]⟩

/-- The `create_analyzer` call trace `setup_all` produces for
`sampleConfig`. -/
def sampleTrace : List (String × Jsn) :=
  [("inv-an",
    .obj [("description", .str "Extractor for Invoice"),
          ("baseAnalyzerId", .str "prebuilt-document"),
          ("fieldSchema", .obj [("total", .obj [("type", .str "number")])])]),
   ("router-id", build_router_analyzer sampleConfig)]

theorem sample_convert_total :
    convert_schema [("total", Jsn.obj [("type", Jsn.str "number")])]
      = some [("total", Jsn.obj [("type", Jsn.str "number")])] := by
  have h₁ : convert_field (.obj [("type", Jsn.str "number")])
      = some (.obj [("type", Jsn.str "number")]) := by
    simp [convert_field, lookupJ, typeIs, truthy]
  simp [convert_schema, convert_props, h₁]

theorem sample_category_body :
    build_category_analyzer
      ⟨"inv", "Invoice", "inv-an", "an invoice",
        [("total", .obj [("type", .str "number")])]⟩
      = some (.obj [("description", .str "Extractor for Invoice"),
                    ("baseAnalyzerId", .str "prebuilt-document"),
                    ("fieldSchema",
                      .obj [("total", .obj [("type", .str "number")])])]) := by
  rw [build_category_analyzer]
  rw [show Category.extraction_schema
        ⟨"inv", "Invoice", "inv-an", "an invoice",
          [("total", .obj [("type", .str "number")])]⟩
      = [("total", Jsn.obj [("type", Jsn.str "number")])] from rfl]
  rw [sample_convert_total]
  rfl

theorem sample_setup_all : setup_all sampleConfig = some sampleTrace := by
  rw [setup_all]
  rw [show sampleConfig.categories
      = [⟨"inv", "Invoice", "inv-an", "an invoice",
          [("total", .obj [("type", .str "number")])]⟩] from rfl]
  rw [setupCategories, sample_category_body, setupCategories]
  rfl

/-- Witness for C8: on the one-category sample configuration the trace has
two calls and ends with the router upsert. -/
theorem spec_c8_provisioning_order_witness :
    sampleTrace.length = sampleConfig.categories.length + 1
    ∧ sampleTrace.getLast?
        = some (sampleConfig.azure.router_analyzer_id,
                build_router_analyzer sampleConfig) := by
  have h := spec_c8_provisioning_order sampleConfig sampleTrace
    (by simp [sampleConfig]) sample_setup_all
  exact ⟨h.1, h.2.1⟩

mutual

theorem convert_field_toJsn : (s : FieldSchema) →
    convert_field s.toJsn = some (specTranslate s).toJsn
  | .leaf ty d => by
      cases ty with
      | none =>
          cases d with
          | none =>
              simp [FieldSchema.toJsn, descrEntries, convert_field, lookupJ,
                typeIs, specTranslate, normDescr]
          | some s =>
              by_cases hs : s = "" <;>
                simp [FieldSchema.toJsn, descrEntries, convert_field, lookupJ,
                  typeIs, truthy, specTranslate, normDescr, hs]
      | some t =>
          cases d with
          | none =>
              simp [FieldSchema.toJsn, descrEntries, convert_field, lookupJ,
                typeIs, specTranslate, normDescr]
          | some s =>
              by_cases hs : s = "" <;>
                simp [FieldSchema.toJsn, descrEntries, convert_field, lookupJ,
                  typeIs, truthy, specTranslate, normDescr, hs]
  | .object d props => by
      have ih := convert_props_toJsn props
      cases d with
      | none =>
          simp [FieldSchema.toJsn, descrEntries, convert_field, lookupJ,
            typeIs, specTranslate, specTranslateProps, normDescr, ih]
      | some s =>
          by_cases hs : s = "" <;>
            simp [FieldSchema.toJsn, descrEntries, convert_field, lookupJ,
              typeIs, truthy, specTranslate, specTranslateProps, normDescr,
              hs, ih]
  | .array d item => by
      have ih := convert_field_toJsn item
      cases d with
      | none =>
          simp [FieldSchema.toJsn, descrEntries, convert_field, lookupJ,
            typeIs, specTranslate, normDescr, ih]
      | some s =>
          by_cases hs : s = "" <;>
            simp [FieldSchema.toJsn, descrEntries, convert_field, lookupJ,
              typeIs, truthy, specTranslate, normDescr, hs, ih]

theorem convert_props_toJsn : (ps : FieldProps) →
    convert_props ps.toJsn = some (specTranslateProps ps).toJsn
  | .nil => by simp [FieldProps.toJsn, convert_props, specTranslateProps]
  | .cons n f rest => by
      have ih₁ := convert_field_toJsn f
      have ih₂ := convert_props_toJsn rest
      simp [FieldProps.toJsn, convert_props, specTranslateProps, ih₁, ih₂]

end

mutual

theorem specTranslate_nodeCount : (s : FieldSchema) →
    (specTranslate s).nodeCount = s.nodeCount
  | .leaf ty d => rfl
  | .object d props => by
      simp [specTranslate, FieldSchema.nodeCount,
        specTranslateProps_nodeCount props]
  | .array d item => by
      simp [specTranslate, FieldSchema.nodeCount, specTranslate_nodeCount item]

theorem specTranslateProps_nodeCount : (ps : FieldProps) →
    (specTranslateProps ps).nodeCount = ps.nodeCount
  | .nil => rfl
  | .cons n f rest => by
      simp [specTranslateProps, FieldProps.nodeCount,
        specTranslate_nodeCount f, specTranslateProps_nodeCount rest]

end

mutual

theorem specTranslate_depth : (s : FieldSchema) →
    (specTranslate s).depth = s.depth
  | .leaf ty d => rfl
  | .object d props => by
      simp [specTranslate, FieldSchema.depth, specTranslateProps_depth props]
  | .array d item => by
      simp [specTranslate, FieldSchema.depth, specTranslate_depth item]

theorem specTranslateProps_depth : (ps : FieldProps) →
    (specTranslateProps ps).depth = ps.depth
  | .nil => rfl
  | .cons n f rest => by
      simp [specTranslateProps, FieldProps.depth, specTranslate_depth f,
        specTranslateProps_depth rest]

end

theorem specTranslateProps_nameList : (ps : FieldProps) →
    (specTranslateProps ps).nameList = ps.nameList
  | .nil => rfl
  | .cons n f rest => by
      simp [specTranslateProps, FieldProps.nameList,
        specTranslateProps_nameList rest]

/-- C6: for every well-formed FieldSchema tree (objects and arrays carry
their `type` markers by construction), translation is a structure-preserving
homomorphism: the source translator agrees with the structure-preserving map
`specTranslate` (both per field and over a whole named schema), which
preserves node count, nesting depth and the ordered property-name list, and
which maps each Object to a `type:"object"` node with `properties` over
exactly the same property names and each Array to a `type:"array"` node with
a translated `items` child. -/
theorem spec_c6_translate_homomorphism :
    (∀ schema : FieldProps,
      convert_schema schema.toJsn = some (specTranslateProps schema).toJsn)
    ∧ (∀ s : FieldSchema, convert_field s.toJsn = some (specTranslate s).toJsn)
    ∧ (∀ s : FieldSchema, (specTranslate s).nodeCount = s.nodeCount)
    ∧ (∀ s : FieldSchema, (specTranslate s).depth = s.depth)
    ∧ (∀ ps : FieldProps, (specTranslateProps ps).nameList = ps.nameList)
    ∧ (∀ (d : Option String) (props : FieldProps),
      convert_field (FieldSchema.object d props).toJsn
        = some (.obj ([("type", .str "object")] ++ descrEntries (normDescr d)
            ++ [("properties", .obj (specTranslateProps props).toJsn)])))
    ∧ (∀ (d : Option String) (item : FieldSchema),
      convert_field (FieldSchema.array d item).toJsn
        = some (.obj ([("type", .str "array")] ++ descrEntries (normDescr d)
            ++ [("items", (specTranslate item).toJsn)]))) := by
  refine ⟨convert_props_toJsn, convert_field_toJsn, specTranslate_nodeCount,
    specTranslate_depth, specTranslateProps_nameList, ?_, ?_⟩
  · intro d props
    have h := convert_field_toJsn (.object d props)
    simpa [specTranslate, FieldSchema.toJsn] using h
  · intro d item
    have h := convert_field_toJsn (.array d item)
    simpa [specTranslate, FieldSchema.toJsn] using h

/-- The `description` entry `_convert_field` emits: present exactly when the
field's `description` value is truthy. -/
def descrPart (kvs : List (String × Jsn)) : List (String × Jsn) :=
  match lookupJ "description" kvs with
  | some d => if truthy d then [("description", d)] else []
  | none => []

theorem convert_field_untyped {kvs : List (String × Jsn)}
    (h : lookupJ "type" kvs = none) :
    convert_field (.obj kvs)
      = some (.obj ([("type", Jsn.str "string")] ++ descrPart kvs)) := by
  simp [convert_field, typeIs, descrPart, h]

/-- Counterexample to C7 as stated: the leaf `{"description": ""}` lacks a
`type` key and carries a present `description`, yet translation emits
`{"type": "string"}` without the description — `_convert_field` keeps a
description only when it is truthy, so a present-but-empty description is
not preserved. -/
theorem spec_c7_counterexample :
    lookupJ "description" [("description", Jsn.str "")] = some (Jsn.str "")
    ∧ convert_field (.obj [("description", Jsn.str "")])
        = some (.obj [("type", Jsn.str "string")]) := by
  refine ⟨rfl, ?_⟩
  simp [convert_field, lookupJ, typeIs, truthy]

/-- C7 (amended): for every leaf field schema lacking a `type` key,
translation emits `type:"string"` instead of failing, and preserves the
description when present and non-empty (truthy); a leaf with no description
yields exactly the `type:"string"` node; the spec example holds:
`{"name": Leaf{description:"d"}} → {"name":
{"type":"string","description":"d"}}`. -/
theorem spec_c7_string_default :
    (∀ (kvs : List (String × Jsn)) (d : Jsn),
      lookupJ "type" kvs = none → lookupJ "description" kvs = some d →
      truthy d = true →
      convert_field (.obj kvs)
        = some (.obj [("type", Jsn.str "string"), ("description", d)]))
    ∧ (∀ kvs : List (String × Jsn),
      lookupJ "type" kvs = none → lookupJ "description" kvs = none →
      convert_field (.obj kvs) = some (.obj [("type", Jsn.str "string")]))
    ∧ convert_schema [("name", .obj [("description", .str "d")])]
        = some [("name", .obj [("type", .str "string"),
                               ("description", .str "d")])] := by
  refine ⟨?_, ?_, ?_⟩
  · intro kvs d h hd htr
    rw [convert_field_untyped h]
    simp [descrPart, hd, htr]
  · intro kvs h hd
    rw [convert_field_untyped h]
    simp [descrPart, hd]
  · simp [convert_schema, convert_props, convert_field, lookupJ, typeIs, truthy]

/-- Witness for C7 (amended): a leaf with only a non-empty description
translates to the string-typed field with the description kept. -/
theorem spec_c7_string_default_witness :
    convert_field (.obj [("description", Jsn.str "d")])
      = some (.obj [("type", Jsn.str "string"), ("description", Jsn.str "d")]) :=
  spec_c7_string_default.1 [("description", Jsn.str "d")] (Jsn.str "d")
    rfl rfl rfl

/-- C10: a field node without a `type` key is emitted as a
`{"type":"string"}` leaf (plus its truthy description, when any), and any
`properties` or `items` children are silently discarded: (a) the general
equation, independent of whatever children the node carries; (b) the output
of an untyped node never contains `properties` or `items` keys; (c) a node
carrying both `properties` and `items` but no `type` collapses to the bare
string leaf. -/
theorem spec_c10_untyped_discards_children :
    (∀ kvs : List (String × Jsn), lookupJ "type" kvs = none →
      convert_field (.obj kvs)
        = some (.obj ([("type", Jsn.str "string")] ++ descrPart kvs)))
    ∧ (∀ (kvs out : List (String × Jsn)), lookupJ "type" kvs = none →
      convert_field (.obj kvs) = some (.obj out) →
      lookupJ "properties" out = none ∧ lookupJ "items" out = none)
    ∧ convert_field
        (.obj [("properties", .obj [("a", .obj [("type", .str "number")])]),
               ("items", .obj [("type", .str "number")])])
        = some (.obj [("type", Jsn.str "string")]) := by
  refine ⟨fun kvs h => convert_field_untyped h, ?_, ?_⟩
  · intro kvs out h hout
    rw [convert_field_untyped h] at hout
    have hEq : [("type", Jsn.str "string")] ++ descrPart kvs = out := by
      simpa using hout
    subst hEq
    cases hd : lookupJ "description" kvs with
    | none => simp [descrPart, hd, lookupJ]
    | some d =>
        cases htr : truthy d <;> simp [descrPart, hd, htr, lookupJ]
  · simp [convert_field, lookupJ, typeIs, truthy]

/-- Witness for C10: an untyped node with a `properties` child is emitted as
the bare string leaf, its nested structure dropped. -/
theorem spec_c10_untyped_discards_children_witness :
    convert_field (.obj [("properties", .obj [("a", .obj [("type", .str "string")])])])
      = some (.obj ([("type", Jsn.str "string")]
          ++ descrPart [("properties", .obj [("a", .obj [("type", .str "string")])])])) :=
  spec_c10_untyped_discards_children.1
    [("properties", .obj [("a", .obj [("type", .str "string")])])] rfl
